import Mathlib

/-!
Shallow embedding of the IoT data generator (`iot-data-stream.py`) and the
dashboard's DynamoDB item conversion (`iot_dashboard.py`).

Numeric sensor values are modelled as exact rationals.  Python's global
pseudorandom generator is modelled as an abstract stream of rationals
(`RandGen`): every call that consumes randomness reads the value at the
current position and advances the position by one.  `random.uniform a b`
is `a + (b - a) * u` for the raw draw `u`, matching CPython.  Fallible
operations (`random.choice` on an empty list, a `KeyError` on a missing
dict key) are modelled with `Option`.
-/

/-- The abstract pseudorandom source: an infinite stream of raw draws and a
current position.  Each draw from Python's `random` module reads one stream
value and advances the position. -/
structure RandGen where
  stream : ℕ → ℚ
  pos : ℕ

/-- Read the next raw draw and advance the stream. -/
def RandGen.next (g : RandGen) : ℚ × RandGen :=
  (g.stream g.pos, { g with pos := g.pos + 1 })

/-- A well-formed source: every raw draw lies in `[0, 1)`, as `random.random`
guarantees. -/
def RandGen.ok (g : RandGen) : Prop :=
  ∀ i : ℕ, 0 ≤ g.stream i ∧ g.stream i < 1

/-- `random.uniform a b`: CPython computes `a + (b - a) * random()`. -/
def pyUniform (a b u : ℚ) : ℚ := a + (b - a) * u

/-- Round half to even on the integer grid, as Python's `round` does. -/
def roundHalfEven (x : ℚ) : ℤ :=
  if x - ⌊x⌋ < 1/2 then ⌊x⌋
  else if 1/2 < x - ⌊x⌋ then ⌊x⌋ + 1
  else if 2 ∣ ⌊x⌋ then ⌊x⌋ else ⌊x⌋ + 1

/-- Python's `round(x, p)` for `p` decimal places (banker's rounding). -/
def pyRound (x : ℚ) (p : ℕ) : ℚ :=
  (roundHalfEven (x * 10 ^ p) : ℚ) / 10 ^ p

/-- Association-list lookup mirroring Python dict subscripting
(`m[k]` succeeds iff the key is present). -/
def getVal {α : Type} : List (String × α) → String → Option α
  | [], _ => none
  | (k', v) :: rest, k => if k' = k then some v else getVal rest k

/-- Association-list update mirroring Python dict assignment `m[k] = v`:
overwrite in place when the key exists, append otherwise. -/
def setVal {α : Type} : List (String × α) → String → α → List (String × α)
  | [], k, v => [(k, v)]
  | (k', v') :: rest, k, v =>
      if k' = k then (k, v) :: rest else (k', v') :: setVal rest k v

/-- `k in m` for the association-list model of a Python dict. -/
def containsKey {α : Type} (m : List (String × α)) (k : String) : Bool :=
  (getVal m k).isSome

/-- One entry of the `SENSOR_TYPES` table. -/
structure SensorConfig where
  unit : String
  min : ℚ
  max : ℚ
  precision : ℕ
  drift_factor : ℚ
  decay : Bool
deriving DecidableEq

/-- The `SENSOR_TYPES` registry of `iot-data-stream.py` (lines 54-98).
Only `battery_level` carries `decay = true`; the others default to false,
matching `sensor_config.get('decay', False)`. -/
def SENSOR_TYPES : List (String × SensorConfig) :=
  [ ("temperature",
      { unit := "°C", min := -10, max := 45, precision := 1,
        drift_factor := 1/10, decay := false }),
    ("humidity",
      { unit := "%", min := 0, max := 100, precision := 1,
        drift_factor := 2, decay := false }),
    ("pressure",
      { unit := "hPa", min := 970, max := 1050, precision := 1,
        drift_factor := 1/2, decay := false }),
    ("light_level",
      { unit := "lux", min := 0, max := 10000, precision := 0,
        drift_factor := 50, decay := false }),
    ("air_quality",
      { unit := "PM2.5", min := 0, max := 500, precision := 1,
        drift_factor := 5, decay := false }),
    ("battery_level",
      { unit := "%", min := 0, max := 100, precision := 0,
        drift_factor := 1/10, decay := true }) ]

/-- A `LOCATIONS` entry. -/
structure Location where
  id : String
  name : String
  lat : ℚ
  lon : ℚ
deriving DecidableEq

/-- `DEVICE_STATUSES` (line 110). -/
def DEVICE_STATUSES : List String :=
  ["operational", "maintenance", "warning", "error"]

/-- `STATUS_WEIGHTS` (line 111). -/
def STATUS_WEIGHTS : List ℚ := [95/100, 3/100, 15/1000, 5/1000]

/-- Running cumulative sums, as `itertools.accumulate` inside
`random.choices`. -/
def cumSums : List ℚ → ℚ → List ℚ
  | [], _ => []
  | w :: rest, acc => (acc + w) :: cumSums rest (acc + w)

/-- `bisect.bisect_right`: number of leading elements `≤ x` of a sorted
list. -/
def bisectRight : List ℚ → ℚ → ℕ
  | [], _ => 0
  | a :: rest, x => if x < a then 0 else 1 + bisectRight rest x

/-- `random.choices(pop, weights)[0]`: one raw draw `u`; CPython bisects
`u * total` into the cumulative weights, searching the first
`len(pop) - 1` entries. -/
def pyChoices1 (pop : List String) (ws : List ℚ) (u : ℚ) : String :=
  let cum := cumSums ws 0
  let total := cum.getLastD 0
  pop.getD (bisectRight (cum.take (pop.length - 1)) (u * total)) ""

/-- `random.choice xs`: one raw draw selects index `⌊u * len⌋`; raises
(`none`) on an empty sequence. -/
def pyChoice {α : Type} (xs : List α) (u : ℚ) : Option α :=
  xs.get? (Int.toNat ⌊u * (xs.length : ℚ)⌋)

/-- The mutable state of `SensorDevice`. -/
structure SensorDevice where
  device_id : String
  location : Location
  sensor_types : List String
  current_values : List (String × ℚ)
deriving DecidableEq

/-- The loop of `SensorDevice.__init__` (lines 130-137): for each supported
kind that is present in `SENSOR_TYPES`, draw `random.uniform(min, max)`;
unrecognized kinds are silently skipped and consume no draw. -/
def initLoop : List String → List (String × ℚ) → RandGen →
    List (String × ℚ) × RandGen
  | [], m, g => (m, g)
  | k :: rest, m, g =>
    match getVal SENSOR_TYPES k with
    | none => initLoop rest m g
    | some cfg =>
      let (u, g1) := RandGen.next g
      initLoop rest (setVal m k (pyUniform cfg.min cfg.max u)) g1

/-- `SensorDevice.__init__` (lines 116-137). -/
def SensorDevice.create (device_id : String) (location : Location)
    (sensor_types : List String) (g : RandGen) : SensorDevice × RandGen :=
  let (m, g') := initLoop sensor_types [] g
  ({ device_id := device_id, location := location,
     sensor_types := sensor_types, current_values := m }, g')

/-- The per-kind update of `generate_reading` (lines 154-173): one drift
draw, sign forced negative for decay kinds, add, clamp to `[min, max]`,
round to the kind's precision. -/
def stepSensor (cfg : SensorConfig) (cur u : ℚ) : ℚ :=
  let drift := pyUniform (-cfg.drift_factor) cfg.drift_factor u
  let drift := if cfg.decay then -|drift| else drift
  let nv := cur + drift
  let nv := max cfg.min (min nv cfg.max)
  pyRound nv cfg.precision

/-- The reading-generation loop of `generate_reading` (lines 150-179):
kinds absent from `SENSOR_TYPES` are skipped (no draw); for the others the
current value is read (`KeyError`, i.e. `none`, when missing), stepped, and
written back, and the `readings` dict gains `{value, unit}` for the kind. -/
def driftLoop : List String → List (String × ℚ) →
    List (String × ℚ × String) → RandGen →
    Option (List (String × ℚ) × List (String × ℚ × String) × RandGen)
  | [], m, rs, g => some (m, rs, g)
  | k :: rest, m, rs, g =>
    match getVal SENSOR_TYPES k with
    | none => driftLoop rest m rs g
    | some cfg =>
      let (u, g1) := RandGen.next g
      match getVal m k with
      | none => none
      | some cur =>
        let nv := stepSensor cfg cur u
        driftLoop rest (setVal m k nv) (setVal rs k (nv, cfg.unit)) g1

/-- `readings[k]['value'] = v`, preserving the unit and the dict order. -/
def setReadingValue (rs : List (String × ℚ × String)) (k : String) (v : ℚ) :
    List (String × ℚ × String) :=
  rs.map (fun p => if p.1 = k then (p.1, v, p.2.2) else p)

/-- One emitted record (the dict built at lines 196-207).  The wall-clock
timestamp is passed in by the caller; it does not interact with the
pseudorandom stream or the device state. -/
structure Reading where
  device_id : String
  timestamp : String
  location_id : String
  location_name : String
  latitude : ℚ
  longitude : ℚ
  readings : List (String × ℚ × String)
  status : String
deriving DecidableEq

/-- `SensorDevice.generate_reading` (lines 139-209).  Draw order: one drift
draw per registered supported kind, one draw for the status choice (line
182), one draw for the anomaly check (line 185), then — only when the
anomaly fires — one draw choosing the anomaly sensor and, when that sensor
has an entry in `readings`, one spike-versus-drop draw; finally two
coordinate-jitter draws.  Returns `none` where the Python raises
(`random.choice` of an empty list, missing `current_values` key). -/
def generate_reading (d : SensorDevice) (timestamp : String) (g : RandGen) :
    Option (SensorDevice × Reading × RandGen) :=
  match driftLoop d.sensor_types d.current_values [] g with
  | none => none
  | some (m, rs, g1) =>
    let (us, g2) := RandGen.next g1
    let status := pyChoices1 DEVICE_STATUSES STATUS_WEIGHTS us
    let (ua, g3) := RandGen.next g2
    let after :
        Option (List (String × ℚ × String) × RandGen) :=
      if ua < 1/100 then
        let (uc, g4) := RandGen.next g3
        match pyChoice d.sensor_types uc with
        | none => none
        | some s =>
          if containsKey rs s then
            match getVal SENSOR_TYPES s with
            | none => none
            | some cfg =>
              let (ux, g5) := RandGen.next g4
              some (setReadingValue rs s (if ux < 1/2 then cfg.max else cfg.min), g5)
          else some (rs, g4)
      else some (rs, g3)
    match after with
    | none => none
    | some (rs2, g6) =>
      let (ulat, g7) := RandGen.next g6
      let (ulon, g8) := RandGen.next g7
      some ({ d with current_values := m },
            { device_id := d.device_id, timestamp := timestamp,
              location_id := d.location.id,
              location_name := d.location.name,
              latitude := d.location.lat + pyUniform (-(1/10000)) (1/10000) ulat,
              longitude := d.location.lon + pyUniform (-(1/10000)) (1/10000) ulon,
              readings := rs2, status := status }, g8)

/-- `n` successive `generate_reading` calls on a device, threading state and
stream (readings discarded). -/
def iterateReadings (d : SensorDevice) (ts : String) (g : RandGen) :
    ℕ → Option (SensorDevice × RandGen)
  | 0 => some (d, g)
  | n + 1 =>
    match generate_reading d ts g with
    | none => none
    | some (d', _, g') => iterateReadings d' ts g' n

/-- `DataGenerator.generate_batch` (lines 244-257), with the `readings`
accumulator list built by `append` exactly as in the source; the updated
devices are returned positionally since Python mutates them in place. -/
def batchLoop (devs : List SensorDevice) (ts : String) (acc : List Reading)
    (g : RandGen) : Option (List SensorDevice × List Reading × RandGen) :=
  match devs with
  | [] => some ([], acc, g)
  | d :: rest =>
    let (u, g1) := RandGen.next g
    if u < 98/100 then
      match generate_reading d ts g1 with
      | none => none
      | some (d', r, g2) =>
        match batchLoop rest ts (acc ++ [r]) g2 with
        | none => none
        | some (ds', rs, g3) => some (d' :: ds', rs, g3)
    else
      match batchLoop rest ts acc g1 with
      | none => none
      | some (ds', rs, g3) => some (d :: ds', rs, g3)

/-- `DataGenerator.generate_batch`. -/
def generate_batch (devs : List SensorDevice) (ts : String) (g : RandGen) :
    Option (List SensorDevice × List Reading × RandGen) :=
  batchLoop devs ts [] g
/-! ### Arithmetic facts about Python rounding -/

/-- `q` is an integer multiple of `10 ^ (-p)`: the set of values left fixed
by `pyRound · p`. -/
def OnGrid (q : ℚ) (p : ℕ) : Prop := ∃ z : ℤ, q * 10 ^ p = (z : ℚ)

lemma le_roundHalfEven (x : ℚ) : x - 1/2 ≤ (roundHalfEven x : ℚ) := by
  have hfl := Int.floor_le x
  have hfr := Int.lt_floor_add_one x
  unfold roundHalfEven
  split_ifs <;> push_cast <;> linarith

lemma roundHalfEven_le (x : ℚ) : (roundHalfEven x : ℚ) ≤ x + 1/2 := by
  have hfl := Int.floor_le x
  have hfr := Int.lt_floor_add_one x
  unfold roundHalfEven
  split_ifs with h1 h2 <;> push_cast <;> linarith

lemma roundHalfEven_intCast (n : ℤ) : roundHalfEven (n : ℚ) = n := by
  unfold roundHalfEven
  rw [Int.floor_intCast]
  norm_num

lemma roundHalfEven_mono {x y : ℚ} (h : x ≤ y) :
    roundHalfEven x ≤ roundHalfEven y := by
  by_contra hc
  push_neg at hc
  have h1 : (roundHalfEven y : ℚ) + 1 ≤ (roundHalfEven x : ℚ) := by
    exact_mod_cast Int.add_one_le_iff.mpr hc
  have h2 := le_roundHalfEven y
  have h3 := roundHalfEven_le x
  have hxy : x = y := le_antisymm h (by linarith)
  subst hxy
  exact absurd hc (lt_irrefl _)

lemma pyRound_onGrid (x : ℚ) (p : ℕ) : OnGrid (pyRound x p) p := by
  refine ⟨roundHalfEven (x * 10 ^ p), ?_⟩
  have h10 : ((10 : ℚ) ^ p) ≠ 0 := by positivity
  unfold pyRound
  field_simp

lemma pyRound_eq_of_onGrid {q : ℚ} {p : ℕ} (h : OnGrid q p) :
    pyRound q p = q := by
  obtain ⟨z, hz⟩ := h
  have h10 : ((10 : ℚ) ^ p) ≠ 0 := by positivity
  unfold pyRound
  rw [hz, roundHalfEven_intCast, div_eq_iff h10, hz]

lemma pyRound_le_of_le {x b : ℚ} {p : ℕ} (hb : OnGrid b p) (h : x ≤ b) :
    pyRound x p ≤ b := by
  obtain ⟨z, hz⟩ := hb
  have h10 : (0 : ℚ) < 10 ^ p := by positivity
  have hx : x * 10 ^ p ≤ ((z : ℤ) : ℚ) := by
    rw [← hz]
    exact mul_le_mul_of_nonneg_right h h10.le
  have hm := roundHalfEven_mono hx
  rw [roundHalfEven_intCast] at hm
  unfold pyRound
  rw [div_le_iff₀ h10, hz]
  exact_mod_cast hm

lemma le_pyRound_of_le {x b : ℚ} {p : ℕ} (hb : OnGrid b p) (h : b ≤ x) :
    b ≤ pyRound x p := by
  obtain ⟨z, hz⟩ := hb
  have h10 : (0 : ℚ) < 10 ^ p := by positivity
  have hx : ((z : ℤ) : ℚ) ≤ x * 10 ^ p := by
    rw [← hz]
    exact mul_le_mul_of_nonneg_right h h10.le
  have hm := roundHalfEven_mono hx
  rw [roundHalfEven_intCast] at hm
  unfold pyRound
  rw [le_div_iff₀ h10, hz]
  exact_mod_cast hm

/-! ### Association-list (Python dict) lemmas -/

lemma getVal_setVal_self {α : Type} (m : List (String × α)) (k : String) (v : α) :
    getVal (setVal m k v) k = some v := by
  induction m with
  | nil => simp [getVal, setVal]
  | cons p rest ih =>
    obtain ⟨k', v'⟩ := p
    by_cases hk : k' = k <;> simp [getVal, setVal, hk, ih]

lemma getVal_setVal_ne {α : Type} (m : List (String × α)) {k k' : String}
    (h : k' ≠ k) (v : α) : getVal (setVal m k v) k' = getVal m k' := by
  induction m with
  | nil => simp [getVal, setVal, Ne.symm h]
  | cons p rest ih =>
    obtain ⟨k0, v0⟩ := p
    by_cases hk : k0 = k
    · subst hk
      simp [getVal, setVal, Ne.symm h]
    · simp [getVal, setVal, hk, ih]

lemma containsKey_setVal_of {α : Type} {m : List (String × α)} {k' : String}
    (h : containsKey m k' = true) (k : String) (v : α) :
    containsKey (setVal m k v) k' = true := by
  by_cases hk : k' = k
  · subst hk
    simp [containsKey, getVal_setVal_self]
  · simpa [containsKey, getVal_setVal_ne m hk v] using h

lemma containsKey_setVal_self {α : Type} (m : List (String × α)) (k : String) (v : α) :
    containsKey (setVal m k v) k = true := by
  simp [containsKey, getVal_setVal_self]

/-! ### Per-kind step lemmas -/

lemma stepSensor_bounds {cfg : SensorConfig} (hle : cfg.min ≤ cfg.max)
    (hm : OnGrid cfg.min cfg.precision) (hM : OnGrid cfg.max cfg.precision)
    (cur u : ℚ) :
    cfg.min ≤ stepSensor cfg cur u ∧ stepSensor cfg cur u ≤ cfg.max := by
  unfold stepSensor
  refine ⟨le_pyRound_of_le hm (le_max_left _ _),
          pyRound_le_of_le hM (max_le hle (min_le_right _ _))⟩

lemma stepSensor_onGrid (cfg : SensorConfig) (cur u : ℚ) :
    OnGrid (stepSensor cfg cur u) cfg.precision := by
  unfold stepSensor
  exact pyRound_onGrid _ _

lemma stepSensor_decay_le {cfg : SensorConfig} (hd : cfg.decay = true)
    {cur : ℚ} (hmin : cfg.min ≤ cur) (hg : OnGrid cur cfg.precision)
    (u : ℚ) : stepSensor cfg cur u ≤ cur := by
  unfold stepSensor
  rw [hd]
  have habs : (0 : ℚ) ≤ |pyUniform (-cfg.drift_factor) cfg.drift_factor u| :=
    abs_nonneg _
  refine pyRound_le_of_le hg (max_le hmin ?_)
  calc min (cur + (if true = true then
          -|pyUniform (-cfg.drift_factor) cfg.drift_factor u|
        else pyUniform (-cfg.drift_factor) cfg.drift_factor u)) cfg.max
      ≤ cur + -|pyUniform (-cfg.drift_factor) cfg.drift_factor u| :=
        min_le_left _ _
    _ ≤ cur := by linarith

/-- Every registered profile has ordered bounds whose endpoints are exact at
the profile's precision. -/
lemma sensorConfig_facts {k : String} {cfg : SensorConfig}
    (h : getVal SENSOR_TYPES k = some cfg) :
    cfg.min ≤ cfg.max ∧ OnGrid cfg.min cfg.precision ∧
      OnGrid cfg.max cfg.precision := by
  simp only [SENSOR_TYPES, getVal] at h
  split_ifs at h <;> simp only [Option.some.injEq] at h <;> subst h
  · exact ⟨by norm_num, ⟨-100, by norm_num⟩, ⟨450, by norm_num⟩⟩
  · exact ⟨by norm_num, ⟨0, by norm_num⟩, ⟨1000, by norm_num⟩⟩
  · exact ⟨by norm_num, ⟨9700, by norm_num⟩, ⟨10500, by norm_num⟩⟩
  · exact ⟨by norm_num, ⟨0, by norm_num⟩, ⟨10000, by norm_num⟩⟩
  · exact ⟨by norm_num, ⟨0, by norm_num⟩, ⟨5000, by norm_num⟩⟩
  · exact ⟨by norm_num, ⟨0, by norm_num⟩, ⟨100, by norm_num⟩⟩

/-! ### Stream and loop lemmas -/

lemma RandGen.ok_of_stream_eq {g g' : RandGen} (h : g'.stream = g.stream)
    (hok : g.ok) : g'.ok := by
  intro i
  rw [h]
  exact hok i

lemma pyUniform_mem {a b u : ℚ} (hab : a ≤ b) (h0 : 0 ≤ u) (h1 : u < 1) :
    a ≤ pyUniform a b u ∧ pyUniform a b u ≤ b := by
  unfold pyUniform
  constructor
  · nlinarith
  · nlinarith

/-- Every registered entry of a `current_values` map lies inside its
profile's declared range. -/
def InBounds (m : List (String × ℚ)) : Prop :=
  ∀ k cfg v, getVal SENSOR_TYPES k = some cfg → getVal m k = some v →
    cfg.min ≤ v ∧ v ≤ cfg.max

lemma initLoop_stream (kinds : List String) :
    ∀ m g, (initLoop kinds m g).2.stream = g.stream := by
  induction kinds with
  | nil => intro m g; rfl
  | cons k rest ih =>
    intro m g
    cases hreg : getVal SENSOR_TYPES k with
    | none => simp only [initLoop, hreg]; exact ih m g
    | some cfg => simp only [initLoop, hreg, RandGen.next]; exact ih _ _

lemma initLoop_inBounds (kinds : List String) :
    ∀ m g, RandGen.ok g → InBounds m → InBounds (initLoop kinds m g).1 := by
  induction kinds with
  | nil => intro m g _ hm; exact hm
  | cons k rest ih =>
    intro m g hok hm
    cases hreg : getVal SENSOR_TYPES k with
    | none => simp only [initLoop, hreg]; exact ih m g hok hm
    | some cfg =>
      simp only [initLoop, hreg, RandGen.next]
      refine ih _ _ (fun i => hok i) ?_
      intro k' cfg' v' hreg' hget'
      by_cases hk : k' = k
      · subst hk
        rw [getVal_setVal_self] at hget'
        obtain rfl : cfg = cfg' := by rw [hreg] at hreg'; exact Option.some.inj hreg'
        obtain rfl : pyUniform cfg.min cfg.max (g.stream g.pos) = v' :=
          Option.some.inj hget'
        exact pyUniform_mem (sensorConfig_facts hreg).1 (hok g.pos).1 (hok g.pos).2
      · rw [getVal_setVal_ne m hk] at hget'
        exact hm k' cfg' v' hreg' hget'

lemma driftLoop_gen (kinds : List String) :
    ∀ m rs g m' rs' g', driftLoop kinds m rs g = some (m', rs', g') →
      g'.stream = g.stream ∧
        g'.pos = g.pos +
          (kinds.filter (fun k => (getVal SENSOR_TYPES k).isSome)).length := by
  induction kinds with
  | nil =>
    intro m rs g m' rs' g' h
    simp only [driftLoop, Option.some.injEq, Prod.mk.injEq] at h
    obtain ⟨-, -, rfl⟩ := h
    simp [List.filter]
  | cons k rest ih =>
    intro m rs g m' rs' g' h
    cases hreg : getVal SENSOR_TYPES k with
    | none =>
      simp only [driftLoop, hreg] at h
      obtain ⟨hs, hp⟩ := ih _ _ _ _ _ _ h
      refine ⟨hs, ?_⟩
      simpa [List.filter, hreg] using hp
    | some cfg =>
      simp only [driftLoop, hreg, RandGen.next] at h
      cases hcur : getVal m k with
      | none => rw [hcur] at h; exact absurd h (by simp)
      | some cur =>
        rw [hcur] at h
        obtain ⟨hs, hp⟩ := ih _ _ _ _ _ _ h
        refine ⟨hs, ?_⟩
        simp only [List.filter, hreg, Option.isSome_some]
        simp at hp ⊢
        omega

lemma driftLoop_inBounds (kinds : List String) :
    ∀ m rs g m' rs' g', InBounds m →
      driftLoop kinds m rs g = some (m', rs', g') → InBounds m' := by
  induction kinds with
  | nil =>
    intro m rs g m' rs' g' hm h
    simp only [driftLoop, Option.some.injEq, Prod.mk.injEq] at h
    obtain ⟨rfl, -, -⟩ := h
    exact hm
  | cons k rest ih =>
    intro m rs g m' rs' g' hm h
    cases hreg : getVal SENSOR_TYPES k with
    | none =>
      simp only [driftLoop, hreg] at h
      exact ih _ _ _ _ _ _ hm h
    | some cfg =>
      simp only [driftLoop, hreg, RandGen.next] at h
      cases hcur : getVal m k with
      | none => rw [hcur] at h; exact absurd h (by simp)
      | some cur =>
        rw [hcur] at h
        refine ih _ _ _ _ _ _ ?_ h
        intro k' cfg' v' hreg' hget'
        by_cases hk : k' = k
        · subst hk
          rw [getVal_setVal_self] at hget'
          obtain rfl : cfg = cfg' := by rw [hreg] at hreg'; exact Option.some.inj hreg'
          obtain rfl : stepSensor cfg cur (g.stream g.pos) = v' :=
            Option.some.inj hget'
          obtain ⟨h1, h2, h3⟩ := sensorConfig_facts hreg
          exact stepSensor_bounds h1 h2 h3 cur (g.stream g.pos)
        · rw [getVal_setVal_ne m hk] at hget'
          exact hm k' cfg' v' hreg' hget'

lemma containsKey_setVal_cases {α : Type} {m : List (String × α)} {k k' : String}
    {v : α} (h : containsKey (setVal m k v) k' = true) :
    k' = k ∨ containsKey m k' = true := by
  by_cases hk : k' = k
  · exact Or.inl hk
  · right
    rw [containsKey, getVal_setVal_ne m hk] at h
    exact h

lemma driftLoop_key_decay (kinds : List String) :
    ∀ m rs g m' rs' g' (k0 : String) (cfg0 : SensorConfig) (v : ℚ),
      driftLoop kinds m rs g = some (m', rs', g') →
      getVal SENSOR_TYPES k0 = some cfg0 → cfg0.decay = true →
      getVal m k0 = some v → cfg0.min ≤ v → OnGrid v cfg0.precision →
      ∃ v', getVal m' k0 = some v' ∧ v' ≤ v ∧ cfg0.min ≤ v' ∧
        OnGrid v' cfg0.precision := by
  induction kinds with
  | nil =>
    intro m rs g m' rs' g' k0 cfg0 v h hreg0 hdec hv hmin hg
    simp only [driftLoop, Option.some.injEq, Prod.mk.injEq] at h
    obtain ⟨rfl, -, -⟩ := h
    exact ⟨v, hv, le_refl v, hmin, hg⟩
  | cons k rest ih =>
    intro m rs g m' rs' g' k0 cfg0 v h hreg0 hdec hv hmin hg
    cases hreg : getVal SENSOR_TYPES k with
    | none =>
      simp only [driftLoop, hreg] at h
      exact ih _ _ _ _ _ _ _ _ _ h hreg0 hdec hv hmin hg
    | some cfg =>
      simp only [driftLoop, hreg, RandGen.next] at h
      cases hcur : getVal m k with
      | none => rw [hcur] at h; exact absurd h (by simp)
      | some cur =>
        rw [hcur] at h
        by_cases hk : k0 = k
        · subst hk
          obtain rfl : cfg = cfg0 := by rw [hreg] at hreg0; exact Option.some.inj hreg0
          obtain rfl : cur = v := by rw [hcur] at hv; exact Option.some.inj hv
          obtain ⟨h1, h2, h3⟩ := sensorConfig_facts hreg
          have hstep := stepSensor_decay_le hdec hmin hg (g.stream g.pos)
          have hlow := (stepSensor_bounds h1 h2 h3 cur (g.stream g.pos)).1
          obtain ⟨v', hv', hle', hmin', hg'⟩ :=
            ih _ _ _ _ _ _ _ _ _ h hreg0 hdec (getVal_setVal_self m k0 _) hlow
              (stepSensor_onGrid _ _ _)
          exact ⟨v', hv', le_trans hle' hstep, hmin', hg'⟩
        · rw [← getVal_setVal_ne m hk (stepSensor cfg cur (g.stream g.pos))] at hv
          exact ih _ _ _ _ _ _ _ _ _ h hreg0 hdec hv hmin hg

lemma driftLoop_some (kinds : List String) :
    ∀ m rs g,
      (∀ k ∈ kinds, (getVal SENSOR_TYPES k).isSome = true →
        containsKey m k = true) →
      ∃ res, driftLoop kinds m rs g = some res := by
  induction kinds with
  | nil => intro m rs g _; exact ⟨(m, rs, g), rfl⟩
  | cons k rest ih =>
    intro m rs g hpres
    cases hreg : getVal SENSOR_TYPES k with
    | none =>
      simp only [driftLoop, hreg]
      exact ih m rs g (fun k' hk' h' => hpres k' (List.mem_cons_of_mem k hk') h')
    | some cfg =>
      have hck : containsKey m k = true :=
        hpres k (List.mem_cons_self k rest) (by rw [hreg]; rfl)
      rw [containsKey, Option.isSome_iff_exists] at hck
      obtain ⟨cur, hcur⟩ := hck
      simp only [driftLoop, hreg, RandGen.next, hcur]
      refine ih _ _ _ ?_
      intro k' hk' hreg'
      exact containsKey_setVal_of (hpres k' (List.mem_cons_of_mem k hk') hreg') _ _

lemma driftLoop_rs_mono (kinds : List String) :
    ∀ m rs g m' rs' g' {k0 : String},
      driftLoop kinds m rs g = some (m', rs', g') →
      containsKey rs k0 = true → containsKey rs' k0 = true := by
  induction kinds with
  | nil =>
    intro m rs g m' rs' g' k0 h hck
    simp only [driftLoop, Option.some.injEq, Prod.mk.injEq] at h
    obtain ⟨-, rfl, -⟩ := h
    exact hck
  | cons k rest ih =>
    intro m rs g m' rs' g' k0 h hck
    cases hreg : getVal SENSOR_TYPES k with
    | none =>
      simp only [driftLoop, hreg] at h
      exact ih _ _ _ _ _ _ h hck
    | some cfg =>
      simp only [driftLoop, hreg, RandGen.next] at h
      cases hcur : getVal m k with
      | none => rw [hcur] at h; exact absurd h (by simp)
      | some cur =>
        rw [hcur] at h
        exact ih _ _ _ _ _ _ h (containsKey_setVal_of hck _ _)

lemma driftLoop_rs_mem (kinds : List String) :
    ∀ m rs g m' rs' g',
      driftLoop kinds m rs g = some (m', rs', g') →
      ∀ k ∈ kinds, (getVal SENSOR_TYPES k).isSome = true →
        containsKey rs' k = true := by
  induction kinds with
  | nil => intro m rs g m' rs' g' _ k hk; exact absurd hk (List.not_mem_nil k)
  | cons k0 rest ih =>
    intro m rs g m' rs' g' h k hk hreg'
    cases hreg : getVal SENSOR_TYPES k0 with
    | none =>
      simp only [driftLoop, hreg] at h
      rcases List.mem_cons.mp hk with rfl | hk'
      · rw [hreg] at hreg'; exact absurd hreg' (by simp)
      · exact ih _ _ _ _ _ _ h k hk' hreg'
    | some cfg =>
      simp only [driftLoop, hreg, RandGen.next] at h
      cases hcur : getVal m k0 with
      | none => rw [hcur] at h; exact absurd h (by simp)
      | some cur =>
        rw [hcur] at h
        rcases List.mem_cons.mp hk with rfl | hk'
        · exact driftLoop_rs_mono rest _ _ _ _ _ _ h (containsKey_setVal_self rs k _)
        · exact ih _ _ _ _ _ _ h k hk' hreg'

lemma driftLoop_rs_reg (kinds : List String) :
    ∀ m rs g m' rs' g',
      driftLoop kinds m rs g = some (m', rs', g') →
      (∀ k, containsKey rs k = true → (getVal SENSOR_TYPES k).isSome = true) →
      ∀ k, containsKey rs' k = true → (getVal SENSOR_TYPES k).isSome = true := by
  induction kinds with
  | nil =>
    intro m rs g m' rs' g' h hrs
    simp only [driftLoop, Option.some.injEq, Prod.mk.injEq] at h
    obtain ⟨-, rfl, -⟩ := h
    exact hrs
  | cons k0 rest ih =>
    intro m rs g m' rs' g' h hrs
    cases hreg : getVal SENSOR_TYPES k0 with
    | none =>
      simp only [driftLoop, hreg] at h
      exact ih _ _ _ _ _ _ h hrs
    | some cfg =>
      simp only [driftLoop, hreg, RandGen.next] at h
      cases hcur : getVal m k0 with
      | none => rw [hcur] at h; exact absurd h (by simp)
      | some cur =>
        rw [hcur] at h
        refine ih _ _ _ _ _ _ h ?_
        intro k' hck'
        rcases containsKey_setVal_cases hck' with rfl | hck''
        · rw [hreg]; rfl
        · exact hrs k' hck''

/-! ### Inversion of `generate_reading` -/

/-- Complete case analysis of a successful `generate_reading` call: the
drift loop result, the unchanged device fields, the status draw, and the
three anomaly branches (no fire / fire and hit / fire and miss) with the
exact stream positions each draw reads. -/
lemma generate_reading_inv {d : SensorDevice} {ts : String} {g : RandGen}
    {d' : SensorDevice} {r : Reading} {g' : RandGen}
    (h : generate_reading d ts g = some (d', r, g')) :
    ∃ m rs g1, driftLoop d.sensor_types d.current_values [] g = some (m, rs, g1) ∧
      d' = { d with current_values := m } ∧
      g'.stream = g1.stream ∧
      r.device_id = d.device_id ∧ r.timestamp = ts ∧
      r.location_id = d.location.id ∧ r.location_name = d.location.name ∧
      r.status = pyChoices1 DEVICE_STATUSES STATUS_WEIGHTS (g1.stream g1.pos) ∧
      ((¬ (g1.stream (g1.pos + 1) < 1/100)) ∧ r.readings = rs ∧
          g'.pos = g1.pos + 4 ∧
          r.latitude = d.location.lat +
            pyUniform (-(1/10000)) (1/10000) (g1.stream (g1.pos + 2)) ∧
          r.longitude = d.location.lon +
            pyUniform (-(1/10000)) (1/10000) (g1.stream (g1.pos + 3))
        ∨ (g1.stream (g1.pos + 1) < 1/100) ∧
          ∃ s, pyChoice d.sensor_types (g1.stream (g1.pos + 2)) = some s ∧
            ((containsKey rs s = true ∧ ∃ cfg, getVal SENSOR_TYPES s = some cfg ∧
                r.readings = setReadingValue rs s
                  (if g1.stream (g1.pos + 3) < 1/2 then cfg.max else cfg.min) ∧
                g'.pos = g1.pos + 6 ∧
                r.latitude = d.location.lat +
                  pyUniform (-(1/10000)) (1/10000) (g1.stream (g1.pos + 4)) ∧
                r.longitude = d.location.lon +
                  pyUniform (-(1/10000)) (1/10000) (g1.stream (g1.pos + 5)))
              ∨ (containsKey rs s = false ∧ r.readings = rs ∧
                g'.pos = g1.pos + 5 ∧
                r.latitude = d.location.lat +
                  pyUniform (-(1/10000)) (1/10000) (g1.stream (g1.pos + 3)) ∧
                r.longitude = d.location.lon +
                  pyUniform (-(1/10000)) (1/10000) (g1.stream (g1.pos + 4))))) := by
  unfold generate_reading at h
  cases hdl : driftLoop d.sensor_types d.current_values [] g with
  | none => rw [hdl] at h; exact absurd h (by simp)
  | some res =>
    obtain ⟨m, rs, g1⟩ := res
    rw [hdl] at h
    simp only [RandGen.next] at h
    refine ⟨m, rs, g1, rfl, ?_⟩
    by_cases hfire : g1.stream (g1.pos + 1) < 1/100
    · rw [if_pos hfire] at h
      cases hch : pyChoice d.sensor_types (g1.stream (g1.pos + 2)) with
      | none =>
        rw [hch] at h
        exact absurd h (by simp)
      | some s =>
        rw [hch] at h
        simp only [] at h
        by_cases hck : containsKey rs s = true
        · rw [if_pos hck] at h
          cases hcfg : getVal SENSOR_TYPES s with
          | none =>
            rw [hcfg] at h
            exact absurd h (by simp)
          | some cfg =>
            rw [hcfg] at h
            simp only [Option.some.injEq, Prod.mk.injEq] at h
            obtain ⟨rfl, rfl, rfl⟩ := h
            refine ⟨rfl, rfl, rfl, rfl, rfl, rfl, rfl, Or.inr ?_⟩
            exact ⟨hfire, s, rfl, Or.inl ⟨hck, cfg, hcfg, rfl, rfl, rfl, rfl⟩⟩
        · rw [if_neg hck] at h
          simp only [Option.some.injEq, Prod.mk.injEq] at h
          obtain ⟨rfl, rfl, rfl⟩ := h
          refine ⟨rfl, rfl, rfl, rfl, rfl, rfl, rfl, Or.inr ?_⟩
          exact ⟨hfire, s, rfl, Or.inr ⟨Bool.eq_false_iff.mpr hck, rfl, rfl, rfl, rfl⟩⟩
    · rw [if_neg hfire] at h
      simp only [Option.some.injEq, Prod.mk.injEq] at h
      obtain ⟨rfl, rfl, rfl⟩ := h
      exact ⟨rfl, rfl, rfl, rfl, rfl, rfl, rfl,
        Or.inl ⟨hfire, rfl, rfl, rfl, rfl⟩⟩

/-! ### Trajectory lemmas -/

lemma generate_reading_inBounds {d : SensorDevice} {ts : String} {g : RandGen}
    {d' : SensorDevice} {r : Reading} {g' : RandGen}
    (h : generate_reading d ts g = some (d', r, g'))
    (hm : InBounds d.current_values) : InBounds d'.current_values := by
  obtain ⟨m, rs, g1, hdl, rfl, -⟩ := generate_reading_inv h
  exact driftLoop_inBounds _ _ _ _ _ _ _ hm hdl

lemma iterate_inBounds (n : ℕ) :
    ∀ d ts g dn gn, InBounds d.current_values →
      iterateReadings d ts g n = some (dn, gn) → InBounds dn.current_values := by
  induction n with
  | zero =>
    intro d ts g dn gn hm h
    simp only [iterateReadings, Option.some.injEq, Prod.mk.injEq] at h
    obtain ⟨rfl, -⟩ := h
    exact hm
  | succ n ih =>
    intro d ts g dn gn hm h
    simp only [iterateReadings] at h
    cases hgr : generate_reading d ts g with
    | none => rw [hgr] at h; exact absurd h (by simp)
    | some t =>
      obtain ⟨d', r, g'⟩ := t
      rw [hgr] at h
      exact ih _ _ _ _ _ (generate_reading_inBounds hgr hm) h

lemma iterate_key_decay (j : ℕ) :
    ∀ d ts g (k : String) (cfg : SensorConfig) (v : ℚ),
      getVal SENSOR_TYPES k = some cfg → cfg.decay = true →
      getVal d.current_values k = some v → cfg.min ≤ v →
      OnGrid v cfg.precision →
      ∀ dj gj, iterateReadings d ts g j = some (dj, gj) →
        ∃ vj, getVal dj.current_values k = some vj ∧ vj ≤ v ∧
          cfg.min ≤ vj ∧ OnGrid vj cfg.precision := by
  induction j with
  | zero =>
    intro d ts g k cfg v hcfg hdec hv hmin hgrid dj gj h
    simp only [iterateReadings, Option.some.injEq, Prod.mk.injEq] at h
    obtain ⟨rfl, -⟩ := h
    exact ⟨v, hv, le_refl v, hmin, hgrid⟩
  | succ j ih =>
    intro d ts g k cfg v hcfg hdec hv hmin hgrid dj gj h
    simp only [iterateReadings] at h
    cases hgr : generate_reading d ts g with
    | none => rw [hgr] at h; exact absurd h (by simp)
    | some t =>
      obtain ⟨d', r, g'⟩ := t
      rw [hgr] at h
      obtain ⟨m, rs, g1, hdl, rfl, -⟩ := generate_reading_inv hgr
      obtain ⟨v1, hv1, hle1, hmin1, hgrid1⟩ :=
        driftLoop_key_decay _ _ _ _ _ _ _ _ _ _ hdl hcfg hdec hv hmin hgrid
      obtain ⟨vj, hvj, hlej, hminj, hgridj⟩ :=
        ih _ _ _ _ _ _ hcfg hdec hv1 hmin1 hgrid1 _ _ h
      exact ⟨vj, hvj, le_trans hlej hle1, hminj, hgridj⟩

/-! ### `random.choice` lemmas -/

lemma pyChoice_mem {α : Type} {xs : List α} {u : ℚ} {s : α}
    (h : pyChoice xs u = some s) : s ∈ xs := by
  unfold pyChoice at h
  exact List.get?_mem h

lemma pyChoice_some {α : Type} {xs : List α} (hne : xs ≠ []) {u : ℚ}
    (h0 : 0 ≤ u) (h1 : u < 1) : ∃ s, pyChoice xs u = some s ∧ s ∈ xs := by
  have hlen : 0 < xs.length := List.length_pos.mpr hne
  have hidx : Int.toNat ⌊u * (xs.length : ℚ)⌋ < xs.length := by
    have hfl : ⌊u * (xs.length : ℚ)⌋ < (xs.length : ℤ) := by
      apply Int.floor_lt.mpr
      push_cast
      calc u * (xs.length : ℚ) < 1 * (xs.length : ℚ) := by
            apply mul_lt_mul_of_pos_right h1
            exact_mod_cast hlen
        _ = (xs.length : ℚ) := one_mul _
    omega
  have hs : xs.get? (Int.toNat ⌊u * (xs.length : ℚ)⌋) =
      some (xs.get ⟨Int.toNat ⌊u * (xs.length : ℚ)⌋, hidx⟩) :=
    List.get?_eq_get hidx
  exact ⟨_, hs, List.get?_mem hs⟩

/-! ### `initLoop` key lemmas -/

lemma initLoop_unreg {k : String} (hk : getVal SENSOR_TYPES k = none)
    (kinds : List String) :
    ∀ m g, getVal m k = none → getVal (initLoop kinds m g).1 k = none := by
  induction kinds with
  | nil => intro m g hm; exact hm
  | cons k0 rest ih =>
    intro m g hm
    cases hreg : getVal SENSOR_TYPES k0 with
    | none => simp only [initLoop, hreg]; exact ih m g hm
    | some cfg =>
      simp only [initLoop, hreg, RandGen.next]
      refine ih _ _ ?_
      have hne : k ≠ k0 := by
        intro hkk
        rw [hkk, hreg] at hk
        exact absurd hk (by simp)
      rw [getVal_setVal_ne m hne]
      exact hm

lemma initLoop_m_mono (kinds : List String) :
    ∀ m g {k : String}, containsKey m k = true →
      containsKey (initLoop kinds m g).1 k = true := by
  induction kinds with
  | nil => intro m g k hm; exact hm
  | cons k0 rest ih =>
    intro m g k hm
    cases hreg : getVal SENSOR_TYPES k0 with
    | none => simp only [initLoop, hreg]; exact ih m g hm
    | some cfg =>
      simp only [initLoop, hreg, RandGen.next]
      exact ih _ _ (containsKey_setVal_of hm _ _)

lemma initLoop_reg_mem (kinds : List String) :
    ∀ m g, ∀ k ∈ kinds, (getVal SENSOR_TYPES k).isSome = true →
      containsKey (initLoop kinds m g).1 k = true := by
  induction kinds with
  | nil => intro m g k hk; exact absurd hk (List.not_mem_nil k)
  | cons k0 rest ih =>
    intro m g k hk hreg'
    cases hreg : getVal SENSOR_TYPES k0 with
    | none =>
      simp only [initLoop, hreg]
      rcases List.mem_cons.mp hk with rfl | hk'
      · rw [hreg] at hreg'; exact absurd hreg' (by simp)
      · exact ih m g k hk' hreg'
    | some cfg =>
      simp only [initLoop, hreg, RandGen.next]
      rcases List.mem_cons.mp hk with rfl | hk'
      · exact initLoop_m_mono rest _ _ (containsKey_setVal_self m k _)
      · exact ih _ _ k hk' hreg'

/-! ### Claim theorems: bounds, decay, absorption -/

/-- Claim C1: for every device created by `SensorDevice.__init__` from a
well-formed random source, every registered sensor kind, and every number
of `generate_reading` calls, the persisted `current_values` entry for that
kind lies within the kind's `[min, max]` range, inclusive — the initial
value is uniform in `[min, max]`, and every tick clamps to the range and
rounds to a precision whose grid contains both endpoints. -/
theorem bounds_invariant (id : String) (loc : Location) (kinds : List String)
    (ts : String) (g0 : RandGen) (hok : RandGen.ok g0) (n : ℕ)
    (dn : SensorDevice) (gn : RandGen)
    (hit : iterateReadings (SensorDevice.create id loc kinds g0).1 ts
      (SensorDevice.create id loc kinds g0).2 n = some (dn, gn))
    (k : String) (cfg : SensorConfig) (v : ℚ)
    (hcfg : getVal SENSOR_TYPES k = some cfg)
    (hv : getVal dn.current_values k = some v) :
    cfg.min ≤ v ∧ v ≤ cfg.max := by
  have heq : (SensorDevice.create id loc kinds g0).1.current_values =
      (initLoop kinds [] g0).1 := by
    unfold SensorDevice.create
    rfl
  have hinit : InBounds (SensorDevice.create id loc kinds g0).1.current_values := by
    rw [heq]
    exact initLoop_inBounds kinds [] g0 hok (fun k' cfg' v' _ hv' => by
      exact absurd hv' (by simp [getVal]))
  exact iterate_inBounds n _ _ _ _ _ hinit hit k cfg v hcfg hv

/-- Claim C2 (amended): for a decay-flagged kind, absent or present anomaly
override, the persisted value never increases across a `generate_reading`
call whenever the previous persisted value is on the kind's precision grid
and at least the profile minimum — which holds after every earlier call.
On the very first call after creation the previous value is the unrounded
uniform initial value and rounding can push the persisted value up by as
much as half a precision unit (see the counterexample). -/
theorem decay_monotonic (d : SensorDevice) (ts : String) (g : RandGen)
    (k : String) (cfg : SensorConfig) (v : ℚ)
    (hcfg : getVal SENSOR_TYPES k = some cfg) (hdec : cfg.decay = true)
    (hv : getVal d.current_values k = some v) (hmin : cfg.min ≤ v)
    (hgrid : OnGrid v cfg.precision)
    (d' : SensorDevice) (r : Reading) (g' : RandGen)
    (hgr : generate_reading d ts g = some (d', r, g'))
    (v' : ℚ) (hv' : getVal d'.current_values k = some v') :
    v' ≤ v := by
  obtain ⟨m, rs, g1, hdl, rfl, -⟩ := generate_reading_inv hgr
  obtain ⟨w, hw, hle, -, -⟩ :=
    driftLoop_key_decay _ _ _ _ _ _ _ _ _ _ hdl hcfg hdec hv hmin hgrid
  have : getVal m k = some v' := hv'
  rw [this] at hw
  obtain rfl := Option.some.inj hw
  exact hle

/-- Claim C7: a decay-flagged kind's persisted value sequence is
non-increasing from any on-grid start at or above the minimum (in
particular from the scenario's start of 80), and the profile minimum is
absorbing: once the persisted value equals `min`, it equals `min` after
every subsequent call.  This holds for every draw stream, so in particular
absent anomaly override (the override never touches persisted state). -/
theorem battery_min_absorbing (d : SensorDevice) (ts : String) (g : RandGen)
    (k : String) (cfg : SensorConfig) (v0 : ℚ)
    (hcfg : getVal SENSOR_TYPES k = some cfg) (hdec : cfg.decay = true)
    (hv : getVal d.current_values k = some v0) (hmin : cfg.min ≤ v0)
    (hgrid : OnGrid v0 cfg.precision)
    (n : ℕ) (dn : SensorDevice) (gn : RandGen)
    (hit : iterateReadings d ts g n = some (dn, gn)) :
    ∃ vn, getVal dn.current_values k = some vn ∧ cfg.min ≤ vn ∧ vn ≤ v0 ∧
      ∀ j dj gj, iterateReadings dn ts gn j = some (dj, gj) →
        ∃ vj, getVal dj.current_values k = some vj ∧ vj ≤ vn ∧
          (vn = cfg.min → vj = cfg.min) := by
  obtain ⟨vn, hvn, hlen, hminn, hgridn⟩ :=
    iterate_key_decay n d ts g k cfg v0 hcfg hdec hv hmin hgrid dn gn hit
  refine ⟨vn, hvn, hminn, hlen, ?_⟩
  intro j dj gj hj
  obtain ⟨vj, hvj, hlej, hminj, -⟩ :=
    iterate_key_decay j dn ts gn k cfg vn hcfg hdec hvn hminn hgridn dj gj hj
  exact ⟨vj, hvj, hlej, fun hzero => le_antisymm (hzero ▸ hlej) hminj⟩

/-- Claim C8: a `generate_reading` call mutates only `current_values`: the
device's id, sensor kind list, and assigned `Location` (hence its base
latitude and longitude) are unchanged, and the returned `Reading` carries
the base coordinates plus per-axis jitter draws rather than any persisted
coordinate change. -/
theorem reading_frame (d : SensorDevice) (ts : String) (g : RandGen)
    (d' : SensorDevice) (r : Reading) (g' : RandGen)
    (hgr : generate_reading d ts g = some (d', r, g')) :
    d'.device_id = d.device_id ∧ d'.location = d.location ∧
    d'.sensor_types = d.sensor_types ∧
    ∃ u1 u2, r.latitude = d.location.lat + pyUniform (-(1/10000)) (1/10000) u1 ∧
      r.longitude = d.location.lon + pyUniform (-(1/10000)) (1/10000) u2 := by
  obtain ⟨m, rs, g1, -, rfl, -, -, -, -, -, -, hbr⟩ := generate_reading_inv hgr
  refine ⟨rfl, rfl, rfl, ?_⟩
  rcases hbr with ⟨-, -, -, hlat, hlon⟩ |
    ⟨-, s, -, ⟨-, cfg, -, -, -, hlat, hlon⟩ | ⟨-, -, -, hlat, hlon⟩⟩ <;>
    exact ⟨_, _, hlat, hlon⟩

/-- The readings dict built by the drift loop mirrors the persisted map:
any `{value, unit}` entry it holds for a kind matches that kind's new
`current_values` entry. -/
lemma driftLoop_rs_values (kinds : List String) :
    ∀ m rs g m' rs' g',
      driftLoop kinds m rs g = some (m', rs', g') →
      (∀ k v u', getVal rs k = some (v, u') → getVal m k = some v) →
      ∀ k v u', getVal rs' k = some (v, u') → getVal m' k = some v := by
  induction kinds with
  | nil =>
    intro m rs g m' rs' g' h hrel
    simp only [driftLoop, Option.some.injEq, Prod.mk.injEq] at h
    obtain ⟨rfl, rfl, -⟩ := h
    exact hrel
  | cons k0 rest ih =>
    intro m rs g m' rs' g' h hrel
    cases hreg : getVal SENSOR_TYPES k0 with
    | none =>
      simp only [driftLoop, hreg] at h
      exact ih _ _ _ _ _ _ h hrel
    | some cfg =>
      simp only [driftLoop, hreg, RandGen.next] at h
      cases hcur : getVal m k0 with
      | none => rw [hcur] at h; exact absurd h (by simp)
      | some cur =>
        rw [hcur] at h
        refine ih _ _ _ _ _ _ h ?_
        intro k v u' hget
        by_cases hk : k = k0
        · subst hk
          rw [getVal_setVal_self] at hget
          obtain ⟨rfl, -⟩ : stepSensor cfg cur (g.stream g.pos) = v ∧ cfg.unit = u' :=
            Prod.mk.injEq .. ▸ Option.some.inj hget
          rw [getVal_setVal_self]
        · rw [getVal_setVal_ne rs hk] at hget
          rw [getVal_setVal_ne m hk]
          exact hrel k v u' hget

/-- Claim C10: the persisted state written by `generate_reading` is exactly
the drift-loop output, computed before the anomaly branch and not modified
by it; the pre-override readings agree with that persisted state, and the
returned readings are the pre-override readings with at most one kind's
value field replaced — so an override is visible only in the returned
`Reading`, never in the next tick's baseline. -/
theorem anomaly_reading_only (d : SensorDevice) (ts : String) (g : RandGen)
    (d' : SensorDevice) (r : Reading) (g' : RandGen)
    (hgr : generate_reading d ts g = some (d', r, g')) :
    ∃ m rs g1,
      driftLoop d.sensor_types d.current_values [] g = some (m, rs, g1) ∧
      d'.current_values = m ∧
      (∀ k v u', getVal rs k = some (v, u') → getVal m k = some v) ∧
      (r.readings = rs ∨ ∃ s x, r.readings = setReadingValue rs s x) := by
  obtain ⟨m, rs, g1, hdl, rfl, -, -, -, -, -, -, hbr⟩ := generate_reading_inv hgr
  refine ⟨m, rs, g1, hdl, rfl, ?_, ?_⟩
  · refine driftLoop_rs_values _ _ _ _ _ _ _ hdl ?_
    intro k v u' hget
    exact absurd hget (by simp [getVal])
  · rcases hbr with ⟨-, hrr, -⟩ |
      ⟨-, s, -, ⟨-, cfg, -, hrr, -⟩ | ⟨-, hrr, -⟩⟩
    · exact Or.inl hrr
    · exact Or.inr ⟨s, _, hrr⟩
    · exact Or.inl hrr

/-- Claim C3: on a successful `generate_reading` call in which every
supported kind is registered, if the anomaly draw (the draw following the
status draw) is below 1/100 then exactly one randomly chosen supported
kind's reported value is overridden to its profile's max (spike, when the
next draw is below 1/2) or min (drop, otherwise); if the anomaly draw does
not fire, the reported readings are exactly the drift-loop readings. -/
theorem anomaly_override (d : SensorDevice) (ts : String) (g : RandGen)
    (m : List (String × ℚ)) (rs : List (String × ℚ × String)) (g1 : RandGen)
    (d' : SensorDevice) (r : Reading) (g' : RandGen)
    (hreg : ∀ k ∈ d.sensor_types, (getVal SENSOR_TYPES k).isSome = true)
    (hdl : driftLoop d.sensor_types d.current_values [] g = some (m, rs, g1))
    (hgr : generate_reading d ts g = some (d', r, g')) :
    (¬ (g1.stream (g1.pos + 1) < 1/100) → r.readings = rs) ∧
    ((g1.stream (g1.pos + 1) < 1/100) →
      ∃ s cfg, s ∈ d.sensor_types ∧ getVal SENSOR_TYPES s = some cfg ∧
        pyChoice d.sensor_types (g1.stream (g1.pos + 2)) = some s ∧
        r.readings = setReadingValue rs s
          (if g1.stream (g1.pos + 3) < 1/2 then cfg.max else cfg.min)) := by
  obtain ⟨m2, rs2, g12, hdl2, rfl, -, -, -, -, -, -, hbr⟩ := generate_reading_inv hgr
  rw [hdl] at hdl2
  obtain ⟨rfl, rfl, rfl⟩ : m = m2 ∧ rs = rs2 ∧ g1 = g12 := by
    have := Option.some.inj hdl2
    exact ⟨congrArg Prod.fst this, congrArg (fun t => t.2.1) this,
      congrArg (fun t => t.2.2) this⟩
  constructor
  · intro hnf
    rcases hbr with ⟨-, hrr, -⟩ | ⟨hf, -⟩
    · exact hrr
    · exact absurd hf hnf
  · intro hf
    rcases hbr with ⟨hnf, -⟩ | ⟨-, s, hch, hinner⟩
    · exact absurd hf hnf
    · have hmem : s ∈ d.sensor_types := pyChoice_mem hch
      rcases hinner with ⟨-, cfg, hcfg, hrr, -⟩ | ⟨hck, -⟩
      · exact ⟨s, cfg, hmem, hcfg, hch, hrr⟩
      · exfalso
        have : containsKey rs s = true :=
          driftLoop_rs_mem _ _ _ _ _ _ _ hdl s hmem (hreg s hmem)
        rw [this] at hck
        exact absurd hck (by simp)

/-- Claim C6 (amended): the pseudorandom trace of a successful
`generate_reading` call is: one drift draw per registered supported kind
(in list order), then one draw for status selection, then one draw for the
anomaly check, then — only when the anomaly fires — one draw choosing the
anomaly kind plus, when that kind has a readings entry, one spike-or-drop
draw, and finally two coordinate-jitter draws.  The claim's order (anomaly
check before status) and its assertion that no branch consumes extra draws
do not match the code. -/
theorem draw_trace (d : SensorDevice) (ts : String) (g : RandGen)
    (m : List (String × ℚ)) (rs : List (String × ℚ × String)) (g1 : RandGen)
    (d' : SensorDevice) (r : Reading) (g' : RandGen)
    (hdl : driftLoop d.sensor_types d.current_values [] g = some (m, rs, g1))
    (hgr : generate_reading d ts g = some (d', r, g')) :
    g1.stream = g.stream ∧
    g1.pos = g.pos +
      (d.sensor_types.filter (fun k => (getVal SENSOR_TYPES k).isSome)).length ∧
    g'.stream = g.stream ∧
    g'.pos = g1.pos + 4 +
      (if g1.stream (g1.pos + 1) < 1/100 then
        (match pyChoice d.sensor_types (g1.stream (g1.pos + 2)) with
         | some s => if containsKey rs s then 2 else 1
         | none => 0)
       else 0) := by
  obtain ⟨hs1, hp1⟩ := driftLoop_gen _ _ _ _ _ _ _ hdl
  obtain ⟨m2, rs2, g12, hdl2, rfl, hs', -, -, -, -, -, hbr⟩ := generate_reading_inv hgr
  rw [hdl] at hdl2
  obtain ⟨rfl, rfl, rfl⟩ : m = m2 ∧ rs = rs2 ∧ g1 = g12 := by
    have := Option.some.inj hdl2
    exact ⟨congrArg Prod.fst this, congrArg (fun t => t.2.1) this,
      congrArg (fun t => t.2.2) this⟩
  refine ⟨hs1, hp1, hs'.trans hs1, ?_⟩
  rcases hbr with ⟨hnf, -, hp', -⟩ | ⟨hf, s, hch, hinner⟩
  · rw [if_neg hnf, hp']
  · rcases hinner with ⟨hck, -, -, -, hp', -⟩ | ⟨hck, -, hp', -⟩
    · rw [if_pos hf, hch]
      simp only []
      rw [if_pos hck]
      omega
    · rw [if_pos hf, hch]
      simp only []
      rw [hck]
      simp only [Bool.false_eq_true, if_false]
      omega

/-- Claim C4 (amended): device creation never fails — a sensor kind absent
from the registry is silently ignored at creation (no current value entry,
no draw) — and a subsequent `generate_reading` on a freshly created device
with a non-empty kind list always succeeds, so no failure arises from an
unrecognized kind at tick time either. -/
theorem unrecognized_kind_permissive (id : String) (loc : Location)
    (kinds : List String) (ts : String) (g : RandGen)
    (hok : RandGen.ok g) (hne : kinds ≠ []) :
    (∀ k, getVal SENSOR_TYPES k = none →
      getVal (SensorDevice.create id loc kinds g).1.current_values k = none) ∧
    ∃ out, generate_reading (SensorDevice.create id loc kinds g).1 ts
      (SensorDevice.create id loc kinds g).2 = some out := by
  have hml : (SensorDevice.create id loc kinds g).1.current_values =
      (initLoop kinds [] g).1 := rfl
  have hgl : (SensorDevice.create id loc kinds g).2 = (initLoop kinds [] g).2 := rfl
  constructor
  · intro k hk
    rw [hml]
    exact initLoop_unreg hk kinds [] g rfl
  · obtain ⟨⟨m, rs, g1⟩, hdl⟩ :=
      driftLoop_some kinds (initLoop kinds [] g).1 [] (initLoop kinds [] g).2
        (fun k hk hreg => initLoop_reg_mem kinds [] g k hk hreg)
    have hok1 : ∀ i, 0 ≤ g1.stream i ∧ g1.stream i < 1 := by
      have hs1 := (driftLoop_gen _ _ _ _ _ _ _ hdl).1
      have hs0 := initLoop_stream kinds [] g
      intro i
      rw [hs1, hs0]
      exact hok i
    unfold generate_reading
    simp only [SensorDevice.create]
    rw [hdl]
    simp only [RandGen.next]
    by_cases hfire : g1.stream (g1.pos + 1) < 1/100
    · rw [if_pos hfire]
      obtain ⟨s, hch, hmem⟩ :=
        pyChoice_some (α := String) hne (hok1 (g1.pos + 2)).1 (hok1 (g1.pos + 2)).2
      rw [hch]
      simp only []
      by_cases hck : containsKey rs s = true
      · rw [if_pos hck]
        have hreg : (getVal SENSOR_TYPES s).isSome = true :=
          driftLoop_rs_reg _ _ _ _ _ _ _ hdl
            (fun k' hck' => absurd hck' (by simp [containsKey, getVal])) s hck
        obtain ⟨cfg, hcfg⟩ := Option.isSome_iff_exists.mp hreg
        rw [hcfg]
        exact ⟨_, rfl⟩
      · rw [if_neg hck]
        exact ⟨_, rfl⟩
    · rw [if_neg hfire]
      exact ⟨_, rfl⟩

/-! ### Batch generation refined to a per-device outcome list -/

/-- Per-device transcription of the spec's batch contract: each device
yields exactly one outcome, in fleet order — with probability 98 % (its own
single inclusion draw below 98/100) the result of exactly one
`generate_reading` call, otherwise `none` with the device state unchanged
and no `generate_reading` invoked. -/
def perDevice (devs : List SensorDevice) (ts : String) (g : RandGen) :
    Option (List (SensorDevice × Option Reading) × RandGen) :=
  match devs with
  | [] => some ([], g)
  | d :: rest =>
    let (u, g1) := RandGen.next g
    if u < 98/100 then
      match generate_reading d ts g1 with
      | none => none
      | some (d', r, g2) =>
        (perDevice rest ts g2).map (fun p => ((d', some r) :: p.1, p.2))
    else
      (perDevice rest ts g1).map (fun p => ((d, none) :: p.1, p.2))

lemma batchLoop_perDevice (devs : List SensorDevice) :
    ∀ ts acc g,
      batchLoop devs ts acc g =
        (perDevice devs ts g).map
          (fun p => (p.1.map Prod.fst, acc ++ p.1.filterMap Prod.snd, p.2)) := by
  induction devs with
  | nil => intro ts acc g; simp [batchLoop, perDevice]
  | cons d rest ih =>
    intro ts acc g
    simp only [batchLoop, perDevice, RandGen.next]
    by_cases hu : g.stream g.pos < 98/100
    · rw [if_pos hu, if_pos hu]
      cases hgr : generate_reading d ts { stream := g.stream, pos := g.pos + 1 } with
      | none => simp
      | some t =>
        obtain ⟨d', r, g2⟩ := t
        simp only []
        rw [ih]
        cases hpd : perDevice rest ts g2 with
        | none => simp
        | some p =>
          obtain ⟨os, g3⟩ := p
          simp [List.filterMap_cons]
    · rw [if_neg hu, if_neg hu]
      rw [ih]
      cases hpd : perDevice rest ts { stream := g.stream, pos := g.pos + 1 } with
      | none => simp
      | some p =>
        obtain ⟨os, g3⟩ := p
        simp [List.filterMap_cons]

lemma perDevice_length (devs : List SensorDevice) :
    ∀ ts g os g2, perDevice devs ts g = some (os, g2) →
      os.length = devs.length := by
  induction devs with
  | nil =>
    intro ts g os g2 h
    simp only [perDevice, Option.some.injEq, Prod.mk.injEq] at h
    obtain ⟨rfl, -⟩ := h
    rfl
  | cons d rest ih =>
    intro ts g os g2 h
    simp only [perDevice, RandGen.next] at h
    by_cases hu : g.stream g.pos < 98/100
    · rw [if_pos hu] at h
      cases hgr : generate_reading d ts { stream := g.stream, pos := g.pos + 1 } with
      | none => rw [hgr] at h; exact absurd h (by simp)
      | some t =>
        obtain ⟨d', r, g2'⟩ := t
        rw [hgr] at h
        simp only [] at h
        cases hpd : perDevice rest ts g2' with
        | none => rw [hpd] at h; exact absurd h (by simp)
        | some p =>
          obtain ⟨os', g3⟩ := p
          rw [hpd] at h
          simp only [Option.map_some', Option.some.injEq, Prod.mk.injEq] at h
          obtain ⟨rfl, -⟩ := h
          simp [ih ts _ os' g3 hpd]
    · rw [if_neg hu] at h
      cases hpd : perDevice rest ts { stream := g.stream, pos := g.pos + 1 } with
      | none => rw [hpd] at h; exact absurd h (by simp)
      | some p =>
        obtain ⟨os', g3⟩ := p
        rw [hpd] at h
        simp only [Option.map_some', Option.some.injEq, Prod.mk.injEq] at h
        obtain ⟨rfl, -⟩ := h
        simp [ih ts _ os' g3 hpd]

/-- Claim C5: `generate_batch` equals the per-device transcription — one
outcome per device in fleet iteration order (`perDevice` returns exactly
`devs.length` outcomes), a device is included exactly when its own draw is
below 98/100, an included device contributes the result of its single
`generate_reading` call, and a skipped device is silently absent from the
batch with its state unchanged. -/
theorem generate_batch_spec (devs : List SensorDevice) (ts : String)
    (g : RandGen) :
    generate_batch devs ts g =
      (perDevice devs ts g).map
        (fun p => (p.1.map Prod.fst, p.1.filterMap Prod.snd, p.2)) ∧
    ∀ os g2, perDevice devs ts g = some (os, g2) → os.length = devs.length := by
  constructor
  · have h := batchLoop_perDevice devs ts [] g
    simpa [generate_batch] using h
  · intro os g2 h
    exact perDevice_length devs ts g os g2 h

/-! ### Dashboard deserialization (`iot_dashboard.py`) -/

/-- A value inside a DynamoDB item as `boto3` hands it to the dashboard:
`Decimal`s, plain ints/floats/strings, parsed datetimes (tagged with their
source text), lists, and string-keyed dicts. -/
inductive DVal where
  | dec : ℚ → DVal
  | intV : ℤ → DVal
  | floatV : ℚ → DVal
  | strV : String → DVal
  | dtV : String → DVal
  | listV : List DVal → DVal
  | dictV : List (String × DVal) → DVal

mutual

/-- `convert_dynamodb_item` (`iot_dashboard.py` lines 18-41).  The
`isISO` parameter abstracts `datetime.fromisoformat` succeeding; on
failure the original string is kept.  Lists recurse per element; dicts
convert `Decimal` values to int (whole) or float, parse strings under the
key `timestamp`, and recurse otherwise; every other value — including a
`Decimal` met outside a dict value position — is returned unchanged. -/
def convert_dynamodb_item (isISO : String → Bool) : DVal → DVal
  | .listV xs => .listV (convertList isISO xs)
  | .dictV ps => .dictV (convertPairs isISO ps)
  | v => v

/-- Element-wise recursion of `convert_dynamodb_item` over a list. -/
def convertList (isISO : String → Bool) : List DVal → List DVal
  | [] => []
  | x :: xs => convert_dynamodb_item isISO x :: convertList isISO xs

/-- Pair-wise conversion of a dict's items, as the loop at lines 26-38. -/
def convertPairs (isISO : String → Bool) :
    List (String × DVal) → List (String × DVal)
  | [] => []
  | (k, .dec q) :: rest =>
      (k, if q.den = 1 then DVal.intV q.num else DVal.floatV q) ::
        convertPairs isISO rest
  | (k, .strV s) :: rest =>
      (if k = "timestamp" then
        (k, if isISO s then DVal.dtV s else DVal.strV s)
      else (k, convert_dynamodb_item isISO (.strV s))) :: convertPairs isISO rest
  | (k, v) :: rest => (k, convert_dynamodb_item isISO v) :: convertPairs isISO rest

end

mutual

/-- `true` iff the value contains a `Decimal` anywhere. -/
def hasDec : DVal → Bool
  | .dec _ => true
  | .listV xs => hasDecList xs
  | .dictV ps => hasDecPairs ps
  | _ => false

/-- `hasDec` over a list's elements. -/
def hasDecList : List DVal → Bool
  | [] => false
  | x :: xs => hasDec x || hasDecList xs

/-- `hasDec` over a dict's values. -/
def hasDecPairs : List (String × DVal) → Bool
  | [] => false
  | (_, v) :: rest => hasDec v || hasDecPairs rest

end

mutual

/-- `true` iff no dict in the value maps a key directly to a `Decimal`. -/
def noDecDictVal : DVal → Bool
  | .listV xs => noDecDictValList xs
  | .dictV ps => noDecDictValPairs ps
  | _ => true

/-- `noDecDictVal` over a list's elements. -/
def noDecDictValList : List DVal → Bool
  | [] => true
  | x :: xs => noDecDictVal x && noDecDictValList xs

/-- `noDecDictVal` over a dict's items: the value is not a bare `Decimal`
and recursively satisfies the invariant. -/
def noDecDictValPairs : List (String × DVal) → Bool
  | [] => true
  | (_, .dec _) :: _ => false
  | (_, v) :: rest => noDecDictVal v && noDecDictValPairs rest

end

lemma noDecDictVal_dec (q : ℚ) : noDecDictVal (DVal.dec q) = true := by
  rw [noDecDictVal.eq_def]

lemma noDecDictVal_intV (z : ℤ) : noDecDictVal (DVal.intV z) = true := by
  rw [noDecDictVal.eq_def]

lemma noDecDictVal_floatV (q : ℚ) : noDecDictVal (DVal.floatV q) = true := by
  rw [noDecDictVal.eq_def]

lemma noDecDictVal_strV (s : String) : noDecDictVal (DVal.strV s) = true := by
  rw [noDecDictVal.eq_def]

lemma noDecDictVal_dtV (s : String) : noDecDictVal (DVal.dtV s) = true := by
  rw [noDecDictVal.eq_def]

lemma convert_noDec_aux (isISO : String → Bool) :
    ∀ n : ℕ,
      (∀ v : DVal, sizeOf v ≤ n →
        noDecDictVal (convert_dynamodb_item isISO v) = true) ∧
      (∀ xs : List DVal, sizeOf xs ≤ n →
        noDecDictValList (convertList isISO xs) = true) ∧
      (∀ ps : List (String × DVal), sizeOf ps ≤ n →
        noDecDictValPairs (convertPairs isISO ps) = true) := by
  intro n
  induction n using Nat.strong_induction_on with
  | _ n ih =>
    refine ⟨?_, ?_, ?_⟩
    · intro v hv
      cases v with
      | dec q => simp [convert_dynamodb_item, noDecDictVal]
      | intV z => simp [convert_dynamodb_item, noDecDictVal]
      | floatV q => simp [convert_dynamodb_item, noDecDictVal]
      | strV s => simp [convert_dynamodb_item, noDecDictVal]
      | dtV s => simp [convert_dynamodb_item, noDecDictVal]
      | listV xs =>
        have hsz : sizeOf xs < n := by simp at hv; omega
        simp only [convert_dynamodb_item, noDecDictVal]
        exact (ih _ hsz).2.1 xs le_rfl
      | dictV ps =>
        have hsz : sizeOf ps < n := by simp at hv; omega
        simp only [convert_dynamodb_item, noDecDictVal]
        exact (ih _ hsz).2.2 ps le_rfl
    · intro xs hxs
      cases xs with
      | nil => simp [convertList, noDecDictValList]
      | cons x rest =>
        have hx : sizeOf x < n := by simp at hxs; omega
        have hrest : sizeOf rest < n := by simp at hxs; omega
        simp only [convertList, noDecDictValList, Bool.and_eq_true]
        exact ⟨(ih _ hx).1 x le_rfl, (ih _ hrest).2.1 rest le_rfl⟩
    · intro ps hps
      cases ps with
      | nil => simp [convertPairs, noDecDictValPairs]
      | cons p rest =>
        obtain ⟨k, v⟩ := p
        have hrest : sizeOf rest < n := by simp at hps; omega
        have hvn : sizeOf v < n := by simp at hps; omega
        have htail : noDecDictValPairs (convertPairs isISO rest) = true :=
          (ih _ hrest).2.2 rest le_rfl
        cases v with
        | dec q =>
          by_cases hden : q.den = 1 <;>
            simp [convertPairs, noDecDictValPairs, hden, htail,
              noDecDictVal_intV, noDecDictVal_floatV]
        | intV z =>
          simp [convertPairs, convert_dynamodb_item, noDecDictValPairs, htail,
            noDecDictVal_intV]
        | floatV q =>
          simp [convertPairs, convert_dynamodb_item, noDecDictValPairs, htail,
            noDecDictVal_floatV]
        | dtV s =>
          simp [convertPairs, convert_dynamodb_item, noDecDictValPairs, htail,
            noDecDictVal_dtV]
        | strV s =>
          by_cases hts : k = "timestamp"
          · by_cases hiso : isISO s = true <;>
              simp [convertPairs, noDecDictValPairs, hts, hiso, htail,
                noDecDictVal_dtV, noDecDictVal_strV]
          · simp [convertPairs, convert_dynamodb_item, noDecDictValPairs,
              hts, htail, noDecDictVal_strV]
        | listV xs =>
          have hsz : sizeOf xs < n := by simp at hps; omega
          simp only [convertPairs, convert_dynamodb_item, noDecDictValPairs,
            Bool.and_eq_true, noDecDictVal]
          exact ⟨(ih _ hsz).2.1 xs le_rfl, htail⟩
        | dictV qs =>
          have hsz : sizeOf qs < n := by simp at hps; omega
          simp only [convertPairs, convert_dynamodb_item, noDecDictValPairs,
            Bool.and_eq_true, noDecDictVal]
          exact ⟨(ih _ hsz).2.2 qs le_rfl, htail⟩

lemma convertPairs_dec_mem (isISO : String → Bool) {k : String} {q : ℚ}
    (ps : List (String × DVal)) (h : (k, DVal.dec q) ∈ ps) :
    (k, if q.den = 1 then DVal.intV q.num else DVal.floatV q) ∈
      convertPairs isISO ps := by
  induction ps with
  | nil => exact absurd h (List.not_mem_nil _)
  | cons p rest ih =>
    obtain ⟨k0, v0⟩ := p
    rcases List.mem_cons.mp h with heq | hmem
    · obtain ⟨rfl, rfl⟩ : k0 = k ∧ v0 = DVal.dec q := Prod.mk.injEq .. ▸ heq.symm
      simp [convertPairs]
    · cases v0 with
      | dec q0 => simp [convertPairs]; right; exact (by simpa using ih hmem)
      | strV s0 =>
        by_cases hts : k0 = "timestamp" <;>
          · simp [convertPairs, hts]
            right
            simpa using ih hmem
      | intV z0 => simp [convertPairs]; right; exact (by simpa using ih hmem)
      | floatV q0 => simp [convertPairs]; right; exact (by simpa using ih hmem)
      | dtV s0 => simp [convertPairs]; right; exact (by simpa using ih hmem)
      | listV xs0 => simp [convertPairs]; right; exact (by simpa using ih hmem)
      | dictV qs0 => simp [convertPairs]; right; exact (by simpa using ih hmem)

lemma convertPairs_timestamp_mem (isISO : String → Bool) {s : String}
    (ps : List (String × DVal)) (h : ("timestamp", DVal.strV s) ∈ ps)
    (hiso : isISO s = true) :
    ("timestamp", DVal.dtV s) ∈ convertPairs isISO ps := by
  induction ps with
  | nil => exact absurd h (List.not_mem_nil _)
  | cons p rest ih =>
    obtain ⟨k0, v0⟩ := p
    rcases List.mem_cons.mp h with heq | hmem
    · obtain ⟨rfl, rfl⟩ : k0 = "timestamp" ∧ v0 = DVal.strV s :=
        Prod.mk.injEq .. ▸ heq.symm
      simp [convertPairs, hiso]
    · cases v0 with
      | dec q0 => simp [convertPairs]; right; exact (by simpa using ih hmem)
      | strV s0 =>
        by_cases hts : k0 = "timestamp" <;>
          · simp [convertPairs, hts]
            right
            simpa using ih hmem
      | intV z0 => simp [convertPairs]; right; exact (by simpa using ih hmem)
      | floatV q0 => simp [convertPairs]; right; exact (by simpa using ih hmem)
      | dtV s0 => simp [convertPairs]; right; exact (by simpa using ih hmem)
      | listV xs0 => simp [convertPairs]; right; exact (by simpa using ih hmem)
      | dictV qs0 => simp [convertPairs]; right; exact (by simpa using ih hmem)

lemma convertList_dec_mem (isISO : String → Bool) {q : ℚ}
    (xs : List DVal) (h : DVal.dec q ∈ xs) :
    DVal.dec q ∈ convertList isISO xs := by
  induction xs with
  | nil => exact absurd h (List.not_mem_nil _)
  | cons x rest ih =>
    rcases List.mem_cons.mp h with rfl | hmem
    · simp [convertList, convert_dynamodb_item]
    · simp only [convertList, List.mem_cons]
      right
      exact ih hmem

/-- Claim C9 (amended): `convert_dynamodb_item` leaves no dict key mapping
directly to a `Decimal` at any nesting depth — each dict-valued `Decimal`
becomes an int when whole and a float otherwise — and each string stored
under the key `timestamp` that parses as ISO-8601 becomes a datetime; but
a `Decimal` that is a list element or the top-level item is returned
unchanged, because the function's list branch recurses into a base case
that returns non-dict values as-is. -/
theorem dashboard_convert (isISO : String → Bool) (v : DVal) :
    noDecDictVal (convert_dynamodb_item isISO v) = true ∧
    (∀ k q ps, (k, DVal.dec q) ∈ ps →
      (k, if q.den = 1 then DVal.intV q.num else DVal.floatV q) ∈
        convertPairs isISO ps) ∧
    (∀ s ps, ("timestamp", DVal.strV s) ∈ ps → isISO s = true →
      ("timestamp", DVal.dtV s) ∈ convertPairs isISO ps) ∧
    (∀ q, convert_dynamodb_item isISO (DVal.dec q) = DVal.dec q) ∧
    (∀ q xs, DVal.dec q ∈ xs → DVal.dec q ∈ convertList isISO xs) := by
  refine ⟨(convert_noDec_aux isISO (sizeOf v)).1 v le_rfl, ?_, ?_, ?_, ?_⟩
  · intro k q ps h
    exact convertPairs_dec_mem isISO ps h
  · intro s ps h hiso
    exact convertPairs_timestamp_mem isISO ps h hiso
  · intro q
    simp [convert_dynamodb_item]
  · intro q xs h
    exact convertList_dec_mem isISO xs h

/-- Claim C9 counterexample: a `Decimal` that is an element of a list —
here sitting inside a dict item, the shape DynamoDB actually returns —
survives `convert_dynamodb_item` untouched, so the result is not
Decimal-free at every nesting depth as the claim states. -/
theorem dashboard_convert_counterexample :
    convert_dynamodb_item (fun _ => false)
        (DVal.dictV [("vals", DVal.listV [DVal.dec (1/2)])]) =
      DVal.dictV [("vals", DVal.listV [DVal.dec (1/2)])] ∧
    hasDec (convert_dynamodb_item (fun _ => false)
        (DVal.dictV [("vals", DVal.listV [DVal.dec (1/2)])])) = true := by
  constructor <;>
    simp [convert_dynamodb_item, convertPairs, convertList, hasDec,
      hasDecPairs, hasDecList]

/-! ### Concrete instances for counterexamples and witnesses -/

/-- The first `LOCATIONS` entry (line 102). -/
def locW : Location :=
  { id := "warehouse_a", name := "Warehouse A",
    lat := 476062/10000, lon := -(1223321/10000) }

/-- A raw-draw stream that always returns 1/2. -/
def halfStream : ℕ → ℚ := fun _ => 1/2

/-- A well-formed source positioned at the start of `halfStream`. -/
def gHalf : RandGen := { stream := halfStream, pos := 0 }

lemma gHalf_ok : RandGen.ok gHalf := by
  intro i
  constructor <;> norm_num [gHalf, halfStream]

/-- The registry's `temperature` profile. -/
def cfgT : SensorConfig :=
  { unit := "°C", min := -10, max := 45, precision := 1,
    drift_factor := 1/10, decay := false }

/-- The registry's `battery_level` profile. -/
def cfgB : SensorConfig :=
  { unit := "%", min := 0, max := 100, precision := 0,
    drift_factor := 1/10, decay := true }

/-- A device holding one temperature sensor at 20 °C. -/
def devT : SensorDevice :=
  { device_id := "dev-a", location := locW,
    sensor_types := ["temperature"],
    current_values := [("temperature", 20)] }

/-- A device holding one battery sensor at the scenario start of 80 %. -/
def devB : SensorDevice :=
  { device_id := "dev-c", location := locW,
    sensor_types := ["battery_level"],
    current_values := [("battery_level", 80)] }

/-- Draw stream whose first draw is 0.799 (used to seed a battery level of
79.9) and 1/2 afterwards. -/
def streamC2 : ℕ → ℚ := fun i => if i = 0 then 799/1000 else 1/2

/-- Source over `streamC2` at position 0. -/
def gC2 : RandGen := { stream := streamC2, pos := 0 }

/-- Draw stream whose third draw (the anomaly check of a one-kind device)
is 1/200 < 1 %, so the anomaly branch fires; 1/2 elsewhere. -/
def streamF : ℕ → ℚ := fun i => if i = 2 then 1/200 else 1/2

/-- Source over `streamF` at position 0. -/
def gF : RandGen := { stream := streamF, pos := 0 }

lemma gF_ok : RandGen.ok gF := by
  intro i
  simp only [gF, streamF]
  by_cases hi : i = 2 <;> simp [hi] <;> norm_num

/-! ### Staged evaluations on the concrete instances -/

/-- The registry lookup for `temperature`. -/
lemma getVal_temperature : getVal SENSOR_TYPES "temperature" = some cfgT := by
  rfl

/-- The registry lookup for `battery_level`. -/
lemma getVal_battery : getVal SENSOR_TYPES "battery_level" = some cfgB := by
  rfl

/-- The registry lookup for an unknown kind. -/
lemma getVal_bogus : getVal SENSOR_TYPES "bogus_kind" = none := by
  rfl

/-- The device produced by `createC2_eval`. -/
def devC2a : SensorDevice :=
  { device_id := "dev-b", location := locW,
    sensor_types := ["battery_level"],
    current_values := [("battery_level", 799/10)] }

lemma createC2_eval :
    SensorDevice.create "dev-b" locW ["battery_level"] gC2 =
      (devC2a, { stream := streamC2, pos := 1 }) := by
  simp only [SensorDevice.create, initLoop, getVal_battery, setVal,
    RandGen.next, pyUniform, gC2, devC2a]
  norm_num [streamC2, cfgB]

/-! ### Small-step dict lemmas for concrete evaluation -/

lemma getVal_cons_self {α : Type} (k : String) (v : α)
    (rest : List (String × α)) : getVal ((k, v) :: rest) k = some v := by
  simp [getVal]

lemma setVal_cons_self {α : Type} (k : String) (v v' : α)
    (rest : List (String × α)) :
    setVal ((k, v) :: rest) k v' = (k, v') :: rest := by
  simp [setVal]

lemma setVal_nil {α : Type} (k : String) (v : α) : setVal [] k v = [(k, v)] :=
  rfl

lemma containsKey_cons_self {α : Type} (k : String) (v : α)
    (rest : List (String × α)) : containsKey ((k, v) :: rest) k = true := by
  simp [containsKey, getVal]

/-- The reading emitted from `devC2a` on the zero-drift stream. -/
def rC2 : Reading :=
  { device_id := "dev-b", timestamp := "t",
    location_id := "warehouse_a", location_name := "Warehouse A",
    latitude := 476062/10000, longitude := -(1223321/10000),
    readings := [("battery_level", 80, "%")], status := "operational" }

lemma readC2_eval :
    generate_reading devC2a "t" { stream := streamC2, pos := 1 } =
      some ({ devC2a with current_values := [("battery_level", 80)] }, rC2,
        { stream := streamC2, pos := 6 }) := by
  norm_num [generate_reading, devC2a, driftLoop, getVal_battery,
    getVal_cons_self, setVal_cons_self, setVal_nil, containsKey_cons_self,
    stepSensor, pyUniform, pyRound, roundHalfEven, RandGen.next,
    pyChoices1, cumSums, bisectRight, DEVICE_STATUSES, STATUS_WEIGHTS,
    setReadingValue, cfgB, streamC2, rC2, locW, max_def, min_def,
    List.take, List.getLastD, List.getD, List.length, List.getLast?]

/-- The device created from `gHalf` with one temperature sensor: the
uniform draw 1/2 lands mid-range at 17.5 °C. -/
def devT0 : SensorDevice :=
  { device_id := "dev", location := locW,
    sensor_types := ["temperature"],
    current_values := [("temperature", 35/2)] }

/-- Reading emitted from `devT0` on the all-1/2 stream. -/
def rT0 : Reading :=
  { device_id := "dev", timestamp := "t",
    location_id := "warehouse_a", location_name := "Warehouse A",
    latitude := 476062/10000, longitude := -(1223321/10000),
    readings := [("temperature", 35/2, "°C")], status := "operational" }

/-- Reading emitted from `devT` on the all-1/2 stream. -/
def rT : Reading :=
  { device_id := "dev-a", timestamp := "t",
    location_id := "warehouse_a", location_name := "Warehouse A",
    latitude := 476062/10000, longitude := -(1223321/10000),
    readings := [("temperature", 20, "°C")], status := "operational" }

/-- Reading emitted from `devB` on the all-1/2 stream. -/
def rB : Reading :=
  { device_id := "dev-c", timestamp := "t",
    location_id := "warehouse_a", location_name := "Warehouse A",
    latitude := 476062/10000, longitude := -(1223321/10000),
    readings := [("battery_level", 80, "%")], status := "operational" }

/-- Reading emitted from `devT` on `streamF`: the anomaly fires, the
spike-or-drop draw 1/2 is not below 1/2, so the reported temperature is
overridden to the profile minimum −10. -/
def rTF : Reading :=
  { device_id := "dev-a", timestamp := "t",
    location_id := "warehouse_a", location_name := "Warehouse A",
    latitude := 476062/10000, longitude := -(1223321/10000),
    readings := [("temperature", -10, "°C")], status := "operational" }

lemma createT_eval :
    SensorDevice.create "dev" locW ["temperature"] gHalf =
      (devT0, { stream := halfStream, pos := 1 }) := by
  norm_num [SensorDevice.create, initLoop, getVal_temperature,
    setVal_nil, RandGen.next, pyUniform, gHalf, halfStream, cfgT, devT0]

lemma readT0_eval :
    generate_reading devT0 "t" { stream := halfStream, pos := 1 } =
      some (devT0, rT0, { stream := halfStream, pos := 6 }) := by
  norm_num [generate_reading, devT0, driftLoop, getVal_temperature,
    getVal_cons_self, setVal_cons_self, setVal_nil, containsKey_cons_self,
    stepSensor, pyUniform, pyRound, roundHalfEven, RandGen.next,
    pyChoices1, cumSums, bisectRight, DEVICE_STATUSES, STATUS_WEIGHTS,
    setReadingValue, cfgT, halfStream, rT0, locW, max_def, min_def,
    List.take, List.getLastD, List.getD, List.length, List.getLast?]

lemma iterT_eval :
    iterateReadings devT0 "t" { stream := halfStream, pos := 1 } 1 =
      some (devT0, { stream := halfStream, pos := 6 }) := by
  simp [iterateReadings, readT0_eval]

lemma readT_half_eval :
    generate_reading devT "t" gHalf =
      some (devT, rT, { stream := halfStream, pos := 5 }) := by
  norm_num [generate_reading, devT, driftLoop, getVal_temperature,
    getVal_cons_self, setVal_cons_self, setVal_nil, containsKey_cons_self,
    stepSensor, pyUniform, pyRound, roundHalfEven, RandGen.next,
    pyChoices1, cumSums, bisectRight, DEVICE_STATUSES, STATUS_WEIGHTS,
    setReadingValue, cfgT, gHalf, halfStream, rT, locW, max_def, min_def,
    List.take, List.getLastD, List.getD, List.length, List.getLast?]

lemma readB_eval :
    generate_reading devB "t" gHalf =
      some (devB, rB, { stream := halfStream, pos := 5 }) := by
  norm_num [generate_reading, devB, driftLoop, getVal_battery,
    getVal_cons_self, setVal_cons_self, setVal_nil, containsKey_cons_self,
    stepSensor, pyUniform, pyRound, roundHalfEven, RandGen.next,
    pyChoices1, cumSums, bisectRight, DEVICE_STATUSES, STATUS_WEIGHTS,
    setReadingValue, cfgB, gHalf, halfStream, rB, locW, max_def, min_def,
    List.take, List.getLastD, List.getD, List.length, List.getLast?]

lemma iterB_eval :
    iterateReadings devB "t" gHalf 1 =
      some (devB, { stream := halfStream, pos := 5 }) := by
  simp [iterateReadings, readB_eval]

/-- The source state after `devT`'s drift loop on `streamF`. -/
def g1F : RandGen := { stream := streamF, pos := 1 }

lemma dlTF_eval :
    driftLoop devT.sensor_types devT.current_values [] gF =
      some ([("temperature", 20)], [("temperature", 20, "°C")], g1F) := by
  norm_num [devT, driftLoop, getVal_temperature, getVal_cons_self,
    setVal_cons_self, setVal_nil, stepSensor, pyUniform, pyRound,
    roundHalfEven, RandGen.next, cfgT, gF, g1F, streamF, max_def, min_def]

lemma readTF_eval :
    generate_reading devT "t" gF =
      some (devT, rTF, { stream := streamF, pos := 7 }) := by
  norm_num [generate_reading, devT, driftLoop, getVal_temperature,
    getVal_cons_self, setVal_cons_self, setVal_nil, containsKey_cons_self,
    stepSensor, pyUniform, pyRound, roundHalfEven, RandGen.next,
    pyChoice, pyChoices1, cumSums, bisectRight, DEVICE_STATUSES,
    STATUS_WEIGHTS, setReadingValue, cfgT, gF, streamF, rTF, locW,
    max_def, min_def, List.take, List.getLastD, List.getD, List.length,
    List.getLast?, List.get?]

/-- Device built from a kind list containing an unrecognized kind. -/
def devX : SensorDevice :=
  { device_id := "dev-x", location := locW,
    sensor_types := ["bogus_kind", "temperature"],
    current_values := [("temperature", 35/2)] }

lemma createX_eval :
    SensorDevice.create "dev-x" locW ["bogus_kind", "temperature"] gHalf =
      (devX, { stream := halfStream, pos := 1 }) := by
  norm_num [SensorDevice.create, initLoop, getVal_temperature, getVal_bogus,
    setVal_nil, RandGen.next, pyUniform, gHalf, halfStream, cfgT, devX]

/-! ### Counterexamples -/

/-- Claim C2 counterexample: on the very first call after creation the
previous persisted battery value is the unrounded uniform initial 79.9;
with a zero drift draw and no anomaly (the anomaly draw is 1/2 ≥ 1 %),
precision-0 rounding pushes the persisted value up to 80 > 79.9, so
`new ≤ previous` fails on the first call. -/
theorem decay_monotonic_counterexample :
    getVal (SensorDevice.create "dev-b" locW ["battery_level"] gC2).1.current_values
        "battery_level" = some (799/10) ∧
    (generate_reading (SensorDevice.create "dev-b" locW ["battery_level"] gC2).1
        "t" (SensorDevice.create "dev-b" locW ["battery_level"] gC2).2).map
      (fun t => getVal t.1.current_values "battery_level") = some (some 80) ∧
    ¬ ((80 : ℚ) ≤ 799/10) ∧
    ¬ (streamC2 3 < 1/100) := by
  refine ⟨?_, ?_, by norm_num, by norm_num [streamC2]⟩
  · rw [createC2_eval]
    simp [devC2a, getVal_cons_self]
  · rw [createC2_eval]
    simp [readC2_eval, getVal_cons_self]

/-- Claim C6 counterexample: on a one-kind device the claim predicts
1 + 1 + 1 + 2 = 5 draws and, reading the draw after the drift draw as the
anomaly check (position 1, value 1/2 ≥ 1 %), no override; the code consumes
7 draws (status precedes the anomaly check, and the firing anomaly branch
consumes two extra draws) and overrides the reported value to −10. -/
theorem draw_trace_counterexample :
    (generate_reading devT "t" gF).map (fun t => t.2.2.pos) = some 7 ∧
    (7 : ℕ) ≠ 1 + 1 + 1 + 2 ∧
    (generate_reading devT "t" gF).map
      (fun t => getVal t.2.1.readings "temperature") = some (some (-10, "°C")) ∧
    ¬ (gF.stream 1 < 1/100) := by
  refine ⟨?_, by norm_num, ?_, by norm_num [gF, streamF]⟩ <;>
    simp [readTF_eval, rTF, getVal_cons_self]

/-- Claim C4 counterexample: creating a device whose kind list contains the
unregistered `bogus_kind` succeeds — a device is constructed with the bogus
kind silently ignored (no current value entry, no draw consumed for it) —
instead of failing fast as the claim states. -/
theorem unrecognized_kind_counterexample :
    (SensorDevice.create "dev-x" locW ["bogus_kind", "temperature"] gHalf).1.sensor_types
        = ["bogus_kind", "temperature"] ∧
    getVal (SensorDevice.create "dev-x" locW
        ["bogus_kind", "temperature"] gHalf).1.current_values "bogus_kind" = none ∧
    (SensorDevice.create "dev-x" locW
        ["bogus_kind", "temperature"] gHalf).1.current_values
        = [("temperature", 35/2)] ∧
    (SensorDevice.create "dev-x" locW ["bogus_kind", "temperature"] gHalf).2.pos = 1 := by
  rw [createX_eval]
  refine ⟨rfl, ?_, rfl, rfl⟩
  simp [devX, getVal]

/-! ### Witnesses -/

theorem bounds_invariant_witness :
    cfgT.min ≤ 35/2 ∧ (35/2 : ℚ) ≤ cfgT.max :=
  bounds_invariant "dev" locW ["temperature"] "t" gHalf gHalf_ok 1 devT0
    { stream := halfStream, pos := 6 }
    (by rw [createT_eval]; exact iterT_eval) "temperature" cfgT (35/2)
    getVal_temperature (by simp [devT0, getVal_cons_self])

theorem decay_monotonic_witness : (80 : ℚ) ≤ 80 :=
  decay_monotonic devB "t" gHalf "battery_level" cfgB 80 getVal_battery rfl
    (by simp [devB, getVal_cons_self]) (by norm_num [cfgB])
    ⟨80, by norm_num [cfgB]⟩ devB rB { stream := halfStream, pos := 5 }
    readB_eval 80 (by simp [devB, getVal_cons_self])

theorem battery_min_absorbing_witness :
    ∃ vn, getVal devB.current_values "battery_level" = some vn ∧
      cfgB.min ≤ vn ∧ vn ≤ 80 ∧
      ∀ j dj gj,
        iterateReadings devB "t" { stream := halfStream, pos := 5 } j =
          some (dj, gj) →
        ∃ vj, getVal dj.current_values "battery_level" = some vj ∧ vj ≤ vn ∧
          (vn = cfgB.min → vj = cfgB.min) :=
  battery_min_absorbing devB "t" gHalf "battery_level" cfgB 80 getVal_battery
    rfl (by simp [devB, getVal_cons_self]) (by norm_num [cfgB])
    ⟨80, by norm_num [cfgB]⟩ 1 devB { stream := halfStream, pos := 5 }
    iterB_eval

theorem anomaly_override_witness :
    (¬ (g1F.stream (g1F.pos + 1) < 1/100) →
      rTF.readings = [("temperature", 20, "°C")]) ∧
    ((g1F.stream (g1F.pos + 1) < 1/100) →
      ∃ s cfg, s ∈ devT.sensor_types ∧ getVal SENSOR_TYPES s = some cfg ∧
        pyChoice devT.sensor_types (g1F.stream (g1F.pos + 2)) = some s ∧
        rTF.readings = setReadingValue [("temperature", 20, "°C")] s
          (if g1F.stream (g1F.pos + 3) < 1/2 then cfg.max else cfg.min)) :=
  anomaly_override devT "t" gF [("temperature", 20)]
    [("temperature", 20, "°C")] g1F devT rTF { stream := streamF, pos := 7 }
    (by
      intro k hk
      have hke : k = "temperature" := by simpa [devT] using hk
      subst hke
      simp [getVal_temperature])
    dlTF_eval readTF_eval

theorem draw_trace_witness :
    g1F.stream = gF.stream ∧
    g1F.pos = gF.pos +
      (devT.sensor_types.filter
        (fun k => (getVal SENSOR_TYPES k).isSome)).length ∧
    ({ stream := streamF, pos := 7 } : RandGen).stream = gF.stream ∧
    ({ stream := streamF, pos := 7 } : RandGen).pos = g1F.pos + 4 +
      (if g1F.stream (g1F.pos + 1) < 1/100 then
        (match pyChoice devT.sensor_types (g1F.stream (g1F.pos + 2)) with
         | some s =>
             if containsKey [("temperature", (20 : ℚ), "°C")] s then 2 else 1
         | none => 0)
       else 0) :=
  draw_trace devT "t" gF [("temperature", 20)] [("temperature", 20, "°C")]
    g1F devT rTF { stream := streamF, pos := 7 } dlTF_eval readTF_eval

theorem reading_frame_witness :
    devT.device_id = devT.device_id ∧ devT.location = devT.location ∧
    devT.sensor_types = devT.sensor_types ∧
    ∃ u1 u2,
      rT.latitude = devT.location.lat + pyUniform (-(1/10000)) (1/10000) u1 ∧
      rT.longitude = devT.location.lon + pyUniform (-(1/10000)) (1/10000) u2 :=
  reading_frame devT "t" gHalf devT rT { stream := halfStream, pos := 5 }
    readT_half_eval

theorem anomaly_reading_only_witness :
    ∃ m rs g1,
      driftLoop devT.sensor_types devT.current_values [] gF =
        some (m, rs, g1) ∧
      devT.current_values = m ∧
      (∀ k v u', getVal rs k = some (v, u') → getVal m k = some v) ∧
      (rTF.readings = rs ∨ ∃ s x, rTF.readings = setReadingValue rs s x) :=
  anomaly_reading_only devT "t" gF devT rTF { stream := streamF, pos := 7 }
    readTF_eval

theorem unrecognized_kind_permissive_witness :
    (∀ k, getVal SENSOR_TYPES k = none →
      getVal (SensorDevice.create "dev-x" locW
        ["bogus_kind", "temperature"] gHalf).1.current_values k = none) ∧
    ∃ out, generate_reading (SensorDevice.create "dev-x" locW
        ["bogus_kind", "temperature"] gHalf).1 "t"
      (SensorDevice.create "dev-x" locW
        ["bogus_kind", "temperature"] gHalf).2 = some out :=
  unrecognized_kind_permissive "dev-x" locW ["bogus_kind", "temperature"]
    "t" gHalf gHalf_ok (by simp)

theorem generate_batch_spec_witness :
    generate_batch [devT] "t" gHalf =
      (perDevice [devT] "t" gHalf).map
        (fun p => (p.1.map Prod.fst, p.1.filterMap Prod.snd, p.2)) ∧
    ∀ os g2, perDevice [devT] "t" gHalf = some (os, g2) →
      os.length = [devT].length :=
  generate_batch_spec [devT] "t" gHalf

/-- A two-entry DynamoDB item: a whole-number Decimal and a timestamp. -/
def itemW : List (String × DVal) :=
  [("a", DVal.dec 3), ("timestamp", DVal.strV "2024-01-01T00:00:00")]

theorem dashboard_convert_witness :
    noDecDictVal (convert_dynamodb_item (fun _ => true) (DVal.dictV itemW))
        = true ∧
    ("a", DVal.intV 3) ∈ convertPairs (fun _ => true) itemW ∧
    ("timestamp", DVal.dtV "2024-01-01T00:00:00") ∈
      convertPairs (fun _ => true) itemW := by
  have h := dashboard_convert (fun _ => true) (DVal.dictV itemW)
  refine ⟨h.1, ?_, ?_⟩
  · have h2 := h.2.1 "a" 3 itemW (by simp [itemW])
    have hd : ((3 : ℚ)).den = 1 := by norm_num
    have hn : ((3 : ℚ)).num = 3 := by norm_num
    simpa [hd, hn] using h2
  · exact h.2.2.1 "2024-01-01T00:00:00" itemW (by simp [itemW]) rfl
